import Mathlib

/-!
Verification of the reconciliation pipeline of a Kong ingress controller
(`internal/ingress/controller/kong.go`).

The Go source is shallowly embedded: pointers to scalars become `Option`,
Go slices become `List`, `map[string]interface{}` values become association
lists over a `Json` value type, and a Go `panic` (nil-pointer dereference)
is modelled by an `Option`-valued result being `none`.  External
collaborators (SHA-256, JSON unmarshalling of untrusted bytes, the plugin
schema service and its default filler, the secret store, the gateway HTTP
endpoints, the deck dump/diff/solver pipeline) are supplied as parameters
(`Ext`, `World`) whose per-invocation outcomes the theorems quantify over.
-/

namespace KongCtrl

/-- Raw bytes, as produced by serialization and consumed by hashing. -/
abbrev Bytes := List Nat

/-- An error message produced by Go code (`error` values carry a string). -/
abbrev GoErr := String

/-- A generic JSON value, the model of Go `interface{}` values obtained from
`encoding/json`.  Numbers are modelled as integers. -/
inductive Json where
  | null
  | bool (b : Bool)
  | num (n : Int)
  | str (s : String)
  | arr (elems : List Json)
  | obj (fields : List (String × Json))

/-- The test `v == nil` performed by the Go code on a `map[string]interface{}`
entry: the entry is the JSON `null` value. -/
def Json.isNull : Json → Bool
  | .null => true
  | _ => false

/-- A plugin configuration map (`kong.Configuration = map[string]interface{}`). -/
abbrev Config := List (String × Json)

/-- `kong.Plugin` / `file.FPlugin` (the file wrapper adds no field used here).
Pointer-valued fields are `Option`; the scoping references (`Consumer`,
`Route`, `Service`) are pointers to structs whose `ID` field is itself a
pointer, hence `Option (Option String)`. -/
structure Plugin where
  name : Option String
  config : Option Config
  runOn : Option String
  enabled : Option Bool
  protocols : List String
  consumer : Option (Option String)
  route : Option (Option String)
  service : Option (Option String)

/-- `kong.Service` (only the field the pipeline reads). -/
structure Service where
  name : Option String
deriving DecidableEq

/-- `kong.Route` (the fields the pipeline reads or writes). -/
structure Route where
  name : Option String
  httpsRedirectStatusCode : Option Int
  pathHandling : Option String
deriving DecidableEq

/-- `kong.Upstream`. -/
structure Upstream where
  name : Option String
  algorithm : Option String
deriving DecidableEq

/-- `kong.Target`. -/
structure Target where
  target : Option String
deriving DecidableEq

/-- `kong.Certificate` (with its `SNIs []*string`). -/
structure Certificate where
  id : Option String
  key : Option String
  cert : Option String
  snis : List (Option String)
deriving DecidableEq

/-- `kong.SNI` as built by `getSNIs` (only `Name` is set). -/
structure SNI where
  name : String
deriving DecidableEq

/-- `file.FCertificate`. -/
structure FCertificate where
  id : Option String
  key : Option String
  cert : Option String
  snis : List SNI
deriving DecidableEq

/-- `kong.CACertificate` / `file.FCACertificate`. -/
structure CACertificate where
  cert : Option String
deriving DecidableEq

/-- `kong.Consumer`. -/
structure Consumer where
  username : Option String
deriving DecidableEq

/-- `kong.KeyAuth`. -/
structure KeyAuth where
  key : Option String
deriving DecidableEq

/-- `kong.HMACAuth`. -/
structure HMACAuth where
  username : Option String
deriving DecidableEq

/-- `kong.BasicAuth`. -/
structure BasicAuth where
  username : Option String
deriving DecidableEq

/-- `kong.JWTAuth`. -/
structure JWTAuth where
  key : Option String
deriving DecidableEq

/-- `kong.Oauth2Credential`. -/
structure Oauth2Credential where
  clientID : Option String
deriving DecidableEq

/-- `kongstate.Route`: a route together with the plugins attached to it. -/
structure KSRoute where
  route : Route
  plugins : List Plugin

/-- `kongstate.Service`: a service with its plugins and routes. -/
structure KSService where
  service : Service
  plugins : List Plugin
  routes : List KSRoute

/-- `kongstate.Upstream`: an upstream with its targets. -/
structure KSUpstream where
  upstream : Upstream
  targets : List Target
deriving DecidableEq

/-- `kongstate.Consumer`: a consumer with its plugins and credential sets. -/
structure KSConsumer where
  consumer : Consumer
  plugins : List Plugin
  keyAuths : List KeyAuth
  hmacAuths : List HMACAuth
  basicAuths : List BasicAuth
  jwtAuths : List JWTAuth
  oauth2Creds : List Oauth2Credential

/-- `kongstate.KongState`: the desired-state tree handed to `OnUpdate`. -/
structure KongState where
  services : List KSService
  plugins : List Plugin
  upstreams : List KSUpstream
  certificates : List Certificate
  caCertificates : List CACertificate
  consumers : List KSConsumer

/-- `file.FRoute`: a rendered route with its rendered plugins. -/
structure FRoute where
  route : Route
  plugins : List Plugin

/-- `file.FService`. -/
structure FService where
  service : Service
  plugins : List Plugin
  routes : List FRoute

/-- `file.FUpstream`. -/
structure FUpstream where
  upstream : Upstream
  targets : List Target
deriving DecidableEq

/-- `file.FConsumer`. -/
structure FConsumer where
  consumer : Consumer
  plugins : List Plugin
  keyAuths : List KeyAuth
  hmacAuths : List HMACAuth
  basicAuths : List BasicAuth
  jwtAuths : List JWTAuth
  oauth2Creds : List Oauth2Credential

/-- `file.Info` (the `_info` metadata section). -/
structure Info where
  selectorTags : List String
deriving DecidableEq

/-- `file.Content`: the canonical declarative configuration document.
`routes` is the top-level route collection of the deck file format; the
canonicalizer never populates it, but `cleanUpNullsInPluginConfigs`
iterates it. -/
structure Content where
  formatVersion : String
  services : List FService
  routes : List FRoute
  plugins : List Plugin
  upstreams : List FUpstream
  certificates : List FCertificate
  caCertificates : List CACertificate
  consumers : List FConsumer
  info : Option Info

/-! ## Sorting (`sortByString`, source lines 416-419)

`sortByString` receives a key extractor that dereferences a `*string` field;
the dereference is modelled by an `Option String`-valued key.  Go's
`sort.SliceStable` performs a stable sort and only evaluates the `less`
function (and hence the key dereferences) when the slice has at least two
elements; a `nil` key pointer in that case is a panic, modelled by `none`. -/

/-- `strings.Compare(s, t) < 0`: lexicographic comparison.  Go compares the
UTF-8 bytes; codepoint-wise lexicographic order coincides with byte-wise
lexicographic order of the UTF-8 encodings. -/
def charListLt : List Char → List Char → Bool
  | [], [] => false
  | [], _ :: _ => true
  | _ :: _, [] => false
  | a :: s, b :: t =>
    if a < b then true
    else if b < a then false
    else charListLt s t

/-- `strings.Compare(s, t) < 0` on strings. -/
def strLt (s t : String) : Bool :=
  charListLt s.data t.data

/-- The non-strict order induced by `strLt`: `s ≤ t` iff not `t < s`. -/
def strLe (s t : String) : Prop :=
  strLt t s = false

instance (s t : String) : Decidable (strLe s t) :=
  instDecidableEqBool (strLt t s) false

/-- The string a key dereference yields (only meaningful when the key is
present; `sortByString` returns `none` before this default is ever used on a
`none` key of a multi-element slice). -/
def keyD (key : α → Option String) (x : α) : String :=
  (key x).getD ""

/-- Stable insertion of `a` into `l`: `a` is placed before the first element
whose key is `≥` its own, which keeps an earlier-input element ahead of
later-input elements with an equal key. -/
def orderedInsertKey (key : α → Option String) (a : α) : List α → List α
  | [] => [a]
  | b :: l =>
    if strLe (keyD key a) (keyD key b) then a :: b :: l else b :: orderedInsertKey key a l

/-- Stable insertion sort by string key, the model of `sort.SliceStable`
with `lessFn i j = strings.Compare(fieldFn(i), fieldFn(j)) < 0`. -/
def insertionSortKey (key : α → Option String) : List α → List α
  | [] => []
  | a :: l => orderedInsertKey key a (insertionSortKey key l)

/-- `sortByString` (source lines 416-419).  With fewer than two elements no
comparison runs, so no key is dereferenced; otherwise every key is
dereferenced (`none` key = panic = `none` result). -/
def sortByString (key : α → Option String) (l : List α) : Option (List α) :=
  if l.length ≤ 1 then some l
  else if l.all (fun x => (key x).isSome) then some (insertionSortKey key l)
  else none

/-- The collection is sorted (non-strictly) by its natural string key. -/
def sortedBy (key : α → Option String) (l : List α) : Prop :=
  List.Pairwise (fun a b => strLe (keyD key a) (keyD key b)) l

/-- `output` is a stable rearrangement of `input`: for every key value the
subsequence of elements carrying that key is unchanged. -/
def stableBy (key : α → Option String) (input output : List α) : Prop :=
  ∀ k : String, output.filter (fun x => keyD key x == k) = input.filter (fun x => keyD key x == k)

/-- `output` is the stable by-key sort of `input`. -/
def sortedStableBy (key : α → Option String) (input output : List α) : Prop :=
  sortedBy key output ∧ stableBy key input output

/-! ## Go iteration helpers -/

/-- A Go `for ... append` loop over a list whose body may panic: evaluates
`f` on each element in order, returning `none` as soon as one evaluation
panics. -/
def mapMO (f : α → Option β) : List α → Option (List β)
  | [] => some []
  | a :: l =>
    match f a with
    | none => none
    | some b =>
      match mapMO f l with
      | none => none
      | some bs => some (b :: bs)

/-- A Go loop threading an accumulator whose body may panic. -/
def foldMO (f : List β → α → Option (List β)) : List β → List α → Option (List β)
  | acc, [] => some acc
  | acc, a :: l =>
    match f acc a with
    | none => none
    | some acc2 => foldMO f acc2 l

/-! ## JSON serialization (`encoding/json` marshalling, external library)

Modelled structurally: struct fields are emitted in declaration order and
`omitempty`/nil fields are omitted; Go maps marshal with their keys in
sorted order. -/

mutual

/-- Serialize a JSON value (string escaping elided). -/
def encodeJson : Json → String
  | .null => "null"
  | .bool b => if b then "true" else "false"
  | .num n => toString n
  | .str s => "\"" ++ s ++ "\""
  | .arr xs => "[" ++ encodeJsonList xs ++ "]"
  | .obj fs => "\x7b" ++ encodeJsonFields fs ++ "\x7d"

/-- Serialize the comma-separated elements of a JSON array. -/
def encodeJsonList : List Json → String
  | [] => ""
  | [x] => encodeJson x
  | x :: y :: t => encodeJson x ++ "," ++ encodeJsonList (y :: t)

/-- Serialize the comma-separated members of a JSON object. -/
def encodeJsonFields : List (String × Json) → String
  | [] => ""
  | [(k, v)] => "\"" ++ k ++ "\":" ++ encodeJson v
  | (k, v) :: kv2 :: t => "\"" ++ k ++ "\":" ++ encodeJson v ++ "," ++ encodeJsonFields (kv2 :: t)

end

/-- The byte view of a serialized string. -/
def strBytes (s : String) : Bytes :=
  s.toList.map Char.toNat

/-- A struct field with an `omitempty` pointer value. -/
def optField (k : String) (v : Option Json) : List (String × Json) :=
  match v with
  | none => []
  | some j => [(k, j)]

/-- A struct field holding an `omitempty` `*string`. -/
def strField (k : String) (v : Option String) : List (String × Json) :=
  optField k (v.map Json.str)

/-- A struct field holding an `omitempty` slice. -/
def listField (k : String) (xs : List Json) : List (String × Json) :=
  match xs with
  | [] => []
  | _ => [(k, Json.arr xs)]

/-- A Go `map[string]interface{}` marshals with its keys sorted. -/
def configToJson (c : Config) : Json :=
  Json.obj (insertionSortKey (fun kv => some kv.1) c)

/-- Marshal of a plugin (scoping references marshal as `id`-objects). -/
def pluginToJson (p : Plugin) : Json :=
  Json.obj (strField "name" p.name ++
    optField "config" (p.config.map configToJson) ++
    strField "run_on" p.runOn ++
    optField "enabled" (p.enabled.map Json.bool) ++
    listField "protocols" (p.protocols.map Json.str) ++
    optField "consumer" (p.consumer.map (fun cid => Json.obj (strField "id" cid))) ++
    optField "route" (p.route.map (fun rid => Json.obj (strField "id" rid))) ++
    optField "service" (p.service.map (fun sid => Json.obj (strField "id" sid))))

/-- Marshal of a route. -/
def routeToJson (r : Route) : Json :=
  Json.obj (strField "name" r.name ++
    optField "https_redirect_status_code" (r.httpsRedirectStatusCode.map Json.num) ++
    strField "path_handling" r.pathHandling)

/-- Marshal of a rendered route with its plugins. -/
def frouteToJson (r : FRoute) : Json :=
  match routeToJson r.route with
  | .obj fs => Json.obj (fs ++ listField "plugins" (r.plugins.map pluginToJson))
  | j => j

/-- Marshal of a rendered service. -/
def fserviceToJson (s : FService) : Json :=
  Json.obj (strField "name" s.service.name ++
    listField "plugins" (s.plugins.map pluginToJson) ++
    listField "routes" (s.routes.map frouteToJson))

/-- Marshal of a rendered upstream. -/
def fupstreamToJson (u : FUpstream) : Json :=
  Json.obj (strField "name" u.upstream.name ++
    strField "algorithm" u.upstream.algorithm ++
    listField "targets" (u.targets.map (fun t => Json.obj (strField "target" t.target))))

/-- Marshal of a rendered certificate. -/
def fcertificateToJson (c : FCertificate) : Json :=
  Json.obj (strField "id" c.id ++ strField "cert" c.cert ++ strField "key" c.key ++
    listField "snis" (c.snis.map (fun s => Json.obj [("name", Json.str s.name)])))

/-- Marshal of a CA certificate. -/
def caCertificateToJson (c : CACertificate) : Json :=
  Json.obj (strField "cert" c.cert)

/-- Marshal of a rendered consumer with plugins and credentials. -/
def fconsumerToJson (c : FConsumer) : Json :=
  Json.obj (strField "username" c.consumer.username ++
    listField "plugins" (c.plugins.map pluginToJson) ++
    listField "keyauth_credentials" (c.keyAuths.map (fun a => Json.obj (strField "key" a.key))) ++
    listField "hmacauth_credentials"
      (c.hmacAuths.map (fun a => Json.obj (strField "username" a.username))) ++
    listField "basicauth_credentials"
      (c.basicAuths.map (fun a => Json.obj (strField "username" a.username))) ++
    listField "jwt_secrets" (c.jwtAuths.map (fun a => Json.obj (strField "key" a.key))) ++
    listField "oauth2_credentials"
      (c.oauth2Creds.map (fun a => Json.obj (strField "client_id" a.clientID))))

/-- Marshal of the `_info` section. -/
def infoToJson (i : Info) : Json :=
  Json.obj (listField "select_tags" (i.selectorTags.map Json.str))

/-- The top-level JSON object produced by marshalling a `file.Content`
(struct-tag key names; `omitempty` on every field). -/
def contentObj (c : Content) : List (String × Json) :=
  (if c.formatVersion = "" then [] else [("_format_version", Json.str c.formatVersion)]) ++
  optField "_info" (c.info.map infoToJson) ++
  listField "services" (c.services.map fserviceToJson) ++
  listField "routes" (c.routes.map frouteToJson) ++
  listField "consumers" (c.consumers.map fconsumerToJson) ++
  listField "plugins" (c.plugins.map pluginToJson) ++
  listField "upstreams" (c.upstreams.map fupstreamToJson) ++
  listField "certificates" (c.certificates.map fcertificateToJson) ++
  listField "ca_certificates" (c.caCertificates.map caCertificateToJson)

/-- `json.Marshal` of a `file.Content` value (struct marshal: declaration
field order). -/
def marshalContent (c : Content) : Bytes :=
  strBytes (encodeJson (Json.obj (contentObj c)))

/-- `json.Marshal` of a `map[string]interface{}`: keys in sorted order. -/
def encodeObjSorted (fields : List (String × Json)) : Bytes :=
  strBytes (encodeJson (Json.obj (insertionSortKey (fun kv => some kv.1) fields)))

/-! ## External collaborators and per-invocation outcomes -/

/-- The plugin schema returned by the schema service (opaque payload). -/
abbrev Schema := Json

/-- Pure external functions consumed by the pipeline: the SHA-256 digest,
`json.Unmarshal` of untrusted bytes into a `map[string]interface{}`
(`none` = parse failure), the plugin schema service, and the
schema-default filler `fill`. -/
structure Ext where
  sha256 : Bytes → Bytes
  parseObj : Bytes → Option (List (String × Json))
  schema : String → Except GoErr Schema
  fill : Schema → Config → Except GoErr Config

/-- Per-invocation outcomes of the stateful external collaborators: the
secret store, the gateway `/config` endpoint (Strategy A), and the
dump / state-build / file-render / syncer / solver pipeline (Strategy B).
`solve` is the per-item error list reported by the solver. -/
structure World where
  getSecret : String → String → Except GoErr (List (String × Bytes))
  configPush : Option GoErr
  dump : Except GoErr Unit
  currentState : Except GoErr Unit
  fileGet : Except GoErr Unit
  targetState : Except GoErr Unit
  newSyncer : Except GoErr Unit
  solve : List GoErr

/-- An observable gateway interaction performed by one invocation. -/
inductive Effect where
  | configPush (body : Bytes)
  | dump
  | solve
deriving DecidableEq

/-- An error returned by `OnUpdate`: either a single (possibly wrapped)
Go error message, or the composite `deckutils.ErrArray` aggregating the
solver's per-item errors. -/
inductive Err where
  | go (msg : String)
  | errArray (errs : List GoErr)
deriving DecidableEq

/-- The controller configuration fields the pipeline reads. -/
structure Cfg where
  inMemory : Bool
  enableReverseSync : Bool
  kongCustomEntitiesSecret : String
  hasTagSupport : Bool
  filterTags : List String
deriving DecidableEq

/-- The controller state: its configuration and the in-memory fingerprint of
the last successfully applied document (`nil` slice = `none`). -/
structure KongController where
  cfg : Cfg
  runningConfigHash : Option Bytes
deriving DecidableEq

/-! ## The reconciliation pipeline (source lines 44-509) -/

/-- `getIngressControllerTags` (source lines 287-293). -/
def getIngressControllerTags (cfg : Cfg) : List String :=
  if cfg.hasTagSupport then cfg.filterTags else []

/-- `generateSHA` (source lines 83-100): digest over the marshalled document
followed by the custom-entity bytes when those are non-nil.  The
marshalling error path cannot occur for this document type. -/
def generateSHA (ext : Ext) (targetContent : Content) (customEntities : Option Bytes) : Bytes :=
  let jsonConfig := marshalContent targetContent
  let buffer := jsonConfig ++ (match customEntities with | some b => b | none => [])
  ext.sha256 buffer

/-- Removal of the `null`-valued entries of one plugin config map. -/
def cleanConfig (cfg : Option Config) : Option Config :=
  cfg.map (fun l => l.filter (fun kv => !(kv.2.isNull)))

/-- `cleanConfig` applied to one plugin. -/
def cleanPlugin (p : Plugin) : Plugin :=
  { p with config := cleanConfig p.config }

/-- `cleanUpNullsInPluginConfigs` (source lines 102-140).  Faithful to the
source: inside the loop over `state.Services` the inner route loop ranges
over the top-level `state.Routes` collection (not the service's own
routes), so it runs only when at least one service exists and never touches
the routes nested under services. -/
def cleanUpNullsInPluginConfigs (state : Content) : Content :=
  let st1 := { state with
    services := state.services.map (fun (s : FService) => { s with plugins := s.plugins.map cleanPlugin }) }
  let st2 :=
    if st1.services.length > 0 then
      { st1 with routes := st1.routes.map (fun (r : FRoute) => { r with plugins := r.plugins.map cleanPlugin }) }
    else st1
  let st3 := { st2 with
    consumers := st2.consumers.map (fun (c : FConsumer) => { c with plugins := c.plugins.map cleanPlugin }) }
  { st3 with plugins := st3.plugins.map cleanPlugin }

/-- The entry lookup of a JSON object (`mergeMap[k]`). -/
def lookupStr (k : String) : List (String × Json) → Option Json
  | [] => none
  | kv :: rest => if kv.1 = k then some kv.2 else lookupStr k rest

/-- The top-level merge of `renderConfigWithCustomEntities`: every custom
key absent from the core mapping is added; core keys always win. -/
def mergeFields (core custom : List (String × Json)) : List (String × Json) :=
  core ++ custom.filter (fun kv => (lookupStr kv.1 core).isNone)

/-- `renderConfigWithCustomEntities` (source lines 142-190).  The core
document marshals, and on the slow path is unmarshalled back into its
top-level mapping (`mergeMap`); an unparseable custom blob is logged and
ignored; the merged map re-marshals with sorted keys. -/
def renderConfigWithCustomEntities (ext : Ext) (state : Content)
    (customEntitiesJSONBytes : Option Bytes) : Bytes :=
  let kongCoreConfig := marshalContent state
  if (customEntitiesJSONBytes.getD []).length = 0 then kongCoreConfig
  else
    let mergeMap := contentObj state
    match ext.parseObj (customEntitiesJSONBytes.getD []) with
    | none => encodeObjSorted mergeMap
    | some customEntities => encodeObjSorted (mergeFields mergeMap customEntities)

/-- `strings.Split` on the separator `/` (splitter written over the char
list so that it evaluates). -/
def splitOnSlashAux : List Char → List Char → List String
  | [], acc => [String.mk acc.reverse]
  | c :: rest, acc =>
    if c = '/' then String.mk acc.reverse :: splitOnSlashAux rest []
    else splitOnSlashAux rest (c :: acc)

/-- `strings.Split(s, "/")`. -/
def splitOnSlash (s : String) : List String :=
  splitOnSlashAux s.data []

/-- `utils.ParseNameNS`.  Modelled from the spec: the reference string has
the form `ns/name` and a malformed reference is an error (that part of the
repository is outside the provided source). -/
def ParseNameNS (ref : String) : Except GoErr (String × String) :=
  match splitOnSlash ref with
  | [ns, name] => Except.ok (ns, name)
  | _ => Except.error ("invalid format (namespace/name) found in " ++ ref)

/-- `fetchCustomEntities` (source lines 192-207). -/
def fetchCustomEntities (w : World) (ref : String) : Except GoErr Bytes :=
  match ParseNameNS ref with
  | Except.error e => Except.error ("parsing kong custom entities secret: " ++ e)
  | Except.ok (ns, name) =>
    match w.getSecret ns name with
    | Except.error e => Except.error ("fetching secret: " ++ e)
    | Except.ok secretData =>
      match lookupIn secretData "config" with
      | some config => Except.ok config
      | none => Except.error ("config key not found in custom entities secret " ++ ref)
where
  /-- Go map indexing `secret.Data["config"]`. -/
  lookupIn : List (String × Bytes) → String → Option Bytes
    | [], _ => none
    | kv :: rest, k => if kv.1 = k then some kv.2 else lookupIn rest k

/-- The custom-entity acquisition step of `OnUpdate` (source lines 47-56):
attempted only in in-memory mode with a configured secret reference, and
any failure is logged and leaves the bytes nil. -/
def customEntitiesFor (w : World) (n : KongController) : Option Bytes :=
  if n.cfg.inMemory ∧ n.cfg.kongCustomEntitiesSecret ≠ "" then
    match fetchCustomEntities w n.cfg.kongCustomEntitiesSecret with
    | Except.ok b => some b
    | Except.error _ => none
  else none

/-- `onUpdateInMemoryMode` (source lines 209-242): clear `_info`, strip
plugin-config nulls, merge custom entities, POST the document to
`/config`. -/
def onUpdateInMemoryMode (ext : Ext) (w : World) (state : Content)
    (customEntities : Option Bytes) : Option Err × List Effect :=
  let st1 := { state with info := none }
  let st2 := cleanUpNullsInPluginConfigs st1
  let config := renderConfigWithCustomEntities ext st2 customEntities
  match w.configPush with
  | some e => (some (Err.go ("posting new config to /config: " ++ e)), [Effect.configPush config])
  | none => (none, [Effect.configPush config])

/-- `onUpdateDBMode` (source lines 244-283): dump the live state, build the
two typed states, diff, solve; a non-empty solver error list aggregates
into `deckutils.ErrArray`. -/
def onUpdateDBMode (w : World) : Option Err × List Effect :=
  match w.dump with
  | Except.error e => (some (Err.go ("loading configuration from kong: " ++ e)), [Effect.dump])
  | Except.ok _ =>
    match w.currentState with
    | Except.error e => (some (Err.go e), [Effect.dump])
    | Except.ok _ =>
      match w.fileGet with
      | Except.error e => (some (Err.go e), [Effect.dump])
      | Except.ok _ =>
        match w.targetState with
        | Except.error e => (some (Err.go e), [Effect.dump])
        | Except.ok _ =>
          match w.newSyncer with
          | Except.error e => (some (Err.go ("creating a new syncer: " ++ e)), [Effect.dump])
          | Except.ok _ =>
            if w.solve = [] then (none, [Effect.dump, Effect.solve])
            else (some (Err.errArray w.solve), [Effect.dump, Effect.solve])

/-- `fillRoute` (source lines 463-470). -/
def fillRoute (route : Route) : Route :=
  let r1 :=
    if route.httpsRedirectStatusCode = none then
      { route with httpsRedirectStatusCode := some 426 }
    else route
  if r1.pathHandling = none then { r1 with pathHandling := some "v0" } else r1

/-- `fillUpstream` (source lines 472-476). -/
def fillUpstream (upstream : Upstream) : Upstream :=
  if upstream.algorithm = none then { upstream with algorithm := some "round-robin" } else upstream

/-- The body of `fillPlugin` on a non-nil plugin, returning the error (if
any) together with the plugin state after the call (the Go function mutates
its argument in place, so partial mutations are visible on error paths). -/
def fillPluginRun (ext : Ext) (p : Plugin) : Option GoErr × Plugin :=
  match p.name with
  | none => (some "plugin does not have a name", p)
  | some nm =>
    if nm = "" then (some "plugin does not have a name", p)
    else
      match ext.schema nm with
      | Except.error e => (some ("error retrieveing schema for plugin " ++ nm ++ ": " ++ e), p)
      | Except.ok sch =>
        let p1 := if p.config.isNone then { p with config := some [] } else p
        match ext.fill sch (p1.config.getD []) with
        | Except.error e => (some ("error filling in default for plugin " ++ nm ++ ": " ++ e), p1)
        | Except.ok newConfig =>
          let p2 := { p1 with config := some newConfig }
          let p3 := if p2.runOn = none then { p2 with runOn := some "first" } else p2
          let p4 := if p3.enabled = none then { p3 with enabled := some true } else p3
          let p5 := if p4.protocols = [] then { p4 with protocols := ["http", "https"] } else p4
          (none, { p5 with runOn := none })

/-- `fillPlugin` (source lines 478-509). -/
def fillPlugin (ext : Ext) (plugin : Option Plugin) : Option GoErr × Option Plugin :=
  match plugin with
  | none => (some "plugin is nil", none)
  | some p =>
    let r := fillPluginRun ext p
    (r.1, some r.2)

/-- One plugin of `toDeckContent`: `fillPlugin` followed, on error, by the
`Errorf` call that dereferences `*plugin.Name` (a panic when the name is
nil); on either outcome the (possibly partially filled) plugin is emitted. -/
def processPlugin (ext : Ext) (p : Plugin) : Option Plugin :=
  match fillPlugin ext (some p) with
  | (none, some q) => some q
  | (some _, some q) => if q.name.isSome then some q else none
  | (_, none) => none

/-- The in-loop accumulation of a plugin collection: each appended plugin is
followed by a full `sortByString` pass over the slice accumulated so far
(source lines 314-315 and 330-331). -/
def appendAndSortPlugins (ext : Ext) (acc : List Plugin) (p : Plugin) : Option (List Plugin) :=
  match processPlugin ext p with
  | none => none
  | some q => sortByString (fun x => x.name) (acc ++ [q])

/-- A plugin collection rendered by the in-loop sort-after-append pattern. -/
def renderPluginsSorted (ext : Ext) (ps : List Plugin) : Option (List Plugin) :=
  foldMO (appendAndSortPlugins ext) [] ps

/-- One route of `toDeckContent` (source lines 318-332). -/
def renderRoute (ext : Ext) (r : KSRoute) : Option FRoute :=
  match renderPluginsSorted ext r.plugins with
  | none => none
  | some ps => some { route := fillRoute r.route, plugins := ps }

/-- One service of `toDeckContent` (source lines 304-337). -/
def renderService (ext : Ext) (s : KSService) : Option FService :=
  match renderPluginsSorted ext s.plugins with
  | none => none
  | some ps =>
    match mapMO (renderRoute ext) s.routes with
    | none => none
    | some rs =>
      match sortByString (fun r => r.route.name) rs with
      | none => none
      | some rs2 => some { service := s.service, plugins := ps, routes := rs2 }

/-- One upstream of `toDeckContent` (source lines 352-361). -/
def renderUpstream (u : KSUpstream) : Option FUpstream :=
  match sortByString (fun t => t.target) u.targets with
  | none => none
  | some ts => some { upstream := fillUpstream u.upstream, targets := ts }

/-- `getSNIs` (source lines 436-444): dereferences every SNI name pointer. -/
def getSNIs (names : List (Option String)) : Option (List SNI) :=
  mapMO (fun nm => nm.map (fun s => SNI.mk s)) names

/-- `getFCertificateFromKongCert` (source lines 421-434). -/
def getFCertificateFromKongCert (kongCert : Certificate) : Option FCertificate :=
  match getSNIs kongCert.snis with
  | none => none
  | some snis =>
    some { id := kongCert.id, key := kongCert.key, cert := kongCert.cert, snis := snis }

/-- `pluginString` (source lines 446-461): the composite natural key of a
top-level plugin (name plus scoping ids, absent parts skipped). -/
def pluginString (plugin : Plugin) : String :=
  (plugin.name.getD "") ++
  (match plugin.consumer with | some (some cid) => cid | _ => "") ++
  (match plugin.route with | some (some rid) => rid | _ => "") ++
  (match plugin.service with | some (some sid) => sid | _ => "")

/-- One consumer of `toDeckContent` (source lines 376-403): plugins are
copied in input order (neither filled nor sorted); each credential
collection is sorted by its secret-like field. -/
def renderConsumer (c : KSConsumer) : Option FConsumer :=
  match sortByString (fun a => a.key) c.keyAuths with
  | none => none
  | some keyAuths =>
    match sortByString (fun a => a.username) c.hmacAuths with
    | none => none
    | some hmacAuths =>
      match sortByString (fun a => a.username) c.basicAuths with
      | none => none
      | some basicAuths =>
        match sortByString (fun a => a.key) c.jwtAuths with
        | none => none
        | some jwtAuths =>
          match sortByString (fun a => a.clientID) c.oauth2Creds with
          | none => none
          | some oauth2Creds =>
            some { consumer := c.consumer, plugins := c.plugins, keyAuths := keyAuths,
                   hmacAuths := hmacAuths, basicAuths := basicAuths, jwtAuths := jwtAuths,
                   oauth2Creds := oauth2Creds }

/-- `FormatVersion` (source line 295). -/
def FormatVersion : String := "1.1"

/-- `toDeckContent` (source lines 297-414): the canonicalizer.  A `none`
result models a panic (nil-pointer dereference) during rendering. -/
def toDeckContent (ext : Ext) (cfg : Cfg) (k8sState : KongState) : Option Content :=
  match mapMO (renderService ext) k8sState.services with
  | none => none
  | some services0 =>
    match sortByString (fun s => s.service.name) services0 with
    | none => none
    | some services =>
      match mapMO (processPlugin ext) k8sState.plugins with
      | none => none
      | some plugins0 =>
        match sortByString (fun p => some (pluginString p)) plugins0 with
        | none => none
        | some plugins =>
          match mapMO renderUpstream k8sState.upstreams with
          | none => none
          | some upstreams0 =>
            match sortByString (fun u => u.upstream.name) upstreams0 with
            | none => none
            | some upstreams =>
              match mapMO getFCertificateFromKongCert k8sState.certificates with
              | none => none
              | some certs0 =>
                match sortByString (fun c => c.cert) certs0 with
                | none => none
                | some certificates =>
                  match sortByString (fun c => c.cert) k8sState.caCertificates with
                  | none => none
                  | some caCertificates =>
                    match mapMO renderConsumer k8sState.consumers with
                    | none => none
                    | some consumers0 =>
                      match sortByString (fun c => c.consumer.username) consumers0 with
                      | none => none
                      | some consumers =>
                        let selectorTags := getIngressControllerTags cfg
                        some { formatVersion := FormatVersion, services := services,
                               routes := [], plugins := plugins, upstreams := upstreams,
                               certificates := certificates, caCertificates := caCertificates,
                               consumers := consumers,
                               info := if selectorTags.length > 0 then
                                         some { selectorTags := selectorTags }
                                       else none }

/-- `OnUpdate` (source lines 44-81): render, fetch custom entities
(non-fatally), fingerprint and skip unless reverse sync is enabled,
dispatch to the selected strategy, and advance the stored fingerprint only
on success.  The result is the controller state after the call, the
returned error, and the gateway interactions performed; `none` models a
rendering panic. -/
def OnUpdate (ext : Ext) (w : World) (n : KongController) (state : KongState) :
    Option (KongController × Option Err × List Effect) :=
  match toDeckContent ext n.cfg state with
  | none => none
  | some targetContent =>
    let customEntities := customEntitiesFor w n
    let shaSum : Option Bytes :=
      if n.cfg.enableReverseSync then none
      else some (generateSHA ext targetContent customEntities)
    if n.cfg.enableReverseSync = false ∧ n.runningConfigHash = shaSum then
      some (n, none, [])
    else
      let res :=
        if n.cfg.inMemory then onUpdateInMemoryMode ext w targetContent customEntities
        else onUpdateDBMode w
      match res.1 with
      | some e => some (n, some e, res.2)
      | none => some ({ n with runningConfigHash := shaSum }, none, res.2)

/-! ## Concrete instances used to evaluate the model -/

/-- A concrete external environment: a constant-length stand-in digest, a
parser that accepts the single byte `1` as the object `(extra ↦ 2)`, a
schema service that always answers, and a filler that keeps the config. -/
def extW : Ext :=
  { sha256 := fun b => List.replicate 32 (b.length % 256)
    parseObj := fun b => if b = [1] then some [("extra", Json.num 2)] else none
    schema := fun _ => Except.ok Json.null
    fill := fun _ c => Except.ok c }

/-- A world in which every external call succeeds and the solver reports no
errors. -/
def worldOk : World :=
  { getSecret := fun _ _ => Except.ok []
    configPush := none
    dump := Except.ok ()
    currentState := Except.ok ()
    fileGet := Except.ok ()
    targetState := Except.ok ()
    newSyncer := Except.ok ()
    solve := [] }

/-- A world in which the solver reports two per-item errors. -/
def worldSolverFail : World :=
  { worldOk with solve := ["update service s1 failed", "delete route r9 failed"] }

/-- The empty desired state. -/
def stEmpty : KongState :=
  { services := [], plugins := [], upstreams := [], certificates := [],
    caCertificates := [], consumers := [] }

/-- The canonical document of the empty desired state. -/
def contentEmpty : Content :=
  { formatVersion := FormatVersion, services := [], routes := [], plugins := [],
    upstreams := [], certificates := [], caCertificates := [], consumers := [], info := none }

/-- A DB-mode (Strategy B) configuration without reverse sync. -/
def cfgDB : Cfg :=
  { inMemory := false, enableReverseSync := false, kongCustomEntitiesSecret := "",
    hasTagSupport := false, filterTags := [] }

/-- An in-memory (Strategy A) configuration without reverse sync. -/
def cfgMem : Cfg :=
  { cfgDB with inMemory := true }

/-- A plugin whose config carries an explicit JSON null next to a number. -/
def pNulls : Plugin :=
  { name := some "p", config := some [("a", Json.null), ("b", Json.num 1)],
    runOn := none, enabled := none, protocols := [], consumer := none,
    route := none, service := none }

/-- A canonical document holding one service that owns one route; both the
service and the nested route carry the null-valued plugin config. -/
def cNulls : Content :=
  { contentEmpty with
    services := [{ service := { name := some "s" }, plugins := [pNulls],
                   routes := [{ route := { name := some "r", httpsRedirectStatusCode := none,
                                           pathHandling := none },
                                plugins := [pNulls] }] }] }

/-- A minimal consumer plugin named `b`. -/
def plugB : Plugin :=
  { name := some "b", config := none, runOn := none, enabled := none, protocols := [],
    consumer := none, route := none, service := none }

/-- A minimal consumer plugin named `a`. -/
def plugA : Plugin :=
  { plugB with name := some "a" }

/-- A desired state with one consumer carrying plugins `[b, a]` (natural
keys out of order). -/
def stConsumerPlugins : KongState :=
  { stEmpty with
    consumers := [{ consumer := { username := some "u" }, plugins := [plugB, plugA],
                    keyAuths := [], hmacAuths := [], basicAuths := [], jwtAuths := [],
                    oauth2Creds := [] }] }

/-- The canonical document rendered from `stConsumerPlugins`. -/
def cConsumerPlugins : Content :=
  { contentEmpty with
    consumers := [{ consumer := { username := some "u" }, plugins := [plugB, plugA],
                    keyAuths := [], hmacAuths := [], basicAuths := [], jwtAuths := [],
                    oauth2Creds := [] }] }

/-- An upstream with targets out of natural-key order. -/
def upW : KSUpstream :=
  { upstream := { name := some "up", algorithm := some "least-connections" },
    targets := [{ target := some "10.0.0.2:80" }, { target := some "10.0.0.1:80" }] }

/-- The rendering of `upW`: targets sorted by address. -/
def fupW : FUpstream :=
  { upstream := { name := some "up", algorithm := some "least-connections" },
    targets := [{ target := some "10.0.0.1:80" }, { target := some "10.0.0.2:80" }] }

/-- A consumer with two key-auth credentials out of natural-key order. -/
def consW : KSConsumer :=
  { consumer := { username := some "u" }, plugins := [],
    keyAuths := [{ key := some "k2" }, { key := some "k1" }], hmacAuths := [],
    basicAuths := [], jwtAuths := [], oauth2Creds := [] }

/-- The rendering of `consW`: key-auth credentials sorted by key. -/
def fconsW : FConsumer :=
  { consumer := { username := some "u" }, plugins := [],
    keyAuths := [{ key := some "k1" }, { key := some "k2" }], hmacAuths := [],
    basicAuths := [], jwtAuths := [], oauth2Creds := [] }

/-- A controller in DB mode whose stored fingerprint matches the empty
desired state exactly (for exercising the no-op skip). -/
def nSkip : KongController :=
  { cfg := cfgDB, runningConfigHash := some (generateSHA extW contentEmpty none) }

/-- A fresh controller in DB mode (nil stored fingerprint). -/
def nFreshDB : KongController :=
  { cfg := cfgDB, runningConfigHash := none }

/-- A controller in in-memory mode with reverse sync enabled. -/
def nRevMem : KongController :=
  { cfg := { cfgMem with enableReverseSync := true }, runningConfigHash := none }

/-- A controller in in-memory mode whose custom-entities secret reference
is malformed (no `/` separator). -/
def nBadRef : KongController :=
  { cfg := { cfgMem with kongCustomEntitiesSecret := "no-slash-here" },
    runningConfigHash := none }

/-- A plugin without a name (nil `Name` pointer). -/
def plugNoName : Plugin :=
  { plugB with name := none }

/-- A desired state with one service carrying the nameless plugin. -/
def stNoName : KongState :=
  { stEmpty with
    services := [{ service := { name := some "s" }, plugins := [plugNoName], routes := [] }] }

/-! ## General lemmas -/

theorem charListLt_irrefl (s : List Char) : charListLt s s = false := by
  induction s with
  | nil => rfl
  | cons a t ih => simp [charListLt, lt_irrefl, ih]

theorem charListLt_asymm (s t : List Char) (h : charListLt s t = true) :
    charListLt t s = false := by
  induction s generalizing t with
  | nil =>
    cases t with
    | nil => cases h
    | cons b bs => rfl
  | cons a as ih =>
    cases t with
    | nil => cases h
    | cons b bs =>
      rw [charListLt] at h ⊢
      by_cases hab : a < b
      · rw [if_neg (lt_asymm hab), if_pos hab]
      · by_cases hba : b < a
        · rw [if_neg hab, if_pos hba] at h
          cases h
        · rw [if_neg hab, if_neg hba] at h
          rw [if_neg hba, if_neg hab]
          exact ih bs h

theorem charListLt_false_trans (a : List Char) : ∀ (b c : List Char),
    charListLt b a = false → charListLt c b = false → charListLt c a = false := by
  induction a with
  | nil =>
    intro b c _ _
    cases c with
    | nil => rfl
    | cons x cs => rfl
  | cons y as ih =>
    intro b c hba hcb
    cases c with
    | nil =>
      cases b with
      | nil => exact hba
      | cons z bs => cases hcb
    | cons x cs =>
      cases b with
      | nil => cases hba
      | cons z bs =>
        rw [charListLt] at hba hcb ⊢
        by_cases hxy : x < y
        · by_cases hzy : z < y
          · rw [if_pos hzy] at hba
            cases hba
          · by_cases hxz : x < z
            · rw [if_pos hxz] at hcb
              cases hcb
            · exact absurd
                (lt_of_lt_of_le hxy (le_trans (le_of_not_lt hzy) (le_of_not_lt hxz)))
                (lt_irrefl x)
        · rw [if_neg hxy]
          by_cases hyx : y < x
          · rw [if_pos hyx]
          · rw [if_neg hyx]
            have hxey : x = y := le_antisymm (le_of_not_lt hyx) (le_of_not_lt hxy)
            by_cases hxz : x < z
            · rw [if_pos hxz] at hcb
              cases hcb
            · by_cases hzx : z < x
              · have hzy : z < y := hxey ▸ hzx
                rw [if_pos hzy] at hba
                cases hba
              · rw [if_neg hxz, if_neg hzx] at hcb
                have hzy : ¬ z < y := fun hzy => hzx (hxey.symm ▸ hzy)
                have hyz : ¬ y < z := fun hyz => hxz (hxey ▸ hyz)
                rw [if_neg hzy, if_neg hyz] at hba
                exact ih bs cs hba hcb

theorem strLe_trans (a b c : String) (h1 : strLe a b) (h2 : strLe b c) : strLe a c :=
  charListLt_false_trans a.data b.data c.data h1 h2

theorem strLe_of_not_strLe (s t : String) (h : ¬ strLe s t) : strLe t s :=
  charListLt_asymm t.data s.data (Bool.of_not_eq_false h)

theorem ne_of_strLt (s t : String) (h : strLt s t = true) : s ≠ t := by
  intro he
  subst he
  rw [strLt, charListLt_irrefl] at h
  cases h

theorem mem_orderedInsertKey (key : α → Option String) (a : α) (l : List α) (x : α) :
    x ∈ orderedInsertKey key a l ↔ x = a ∨ x ∈ l := by
  induction l with
  | nil => simp [orderedInsertKey]
  | cons b l ih =>
    by_cases h : strLe (keyD key a) (keyD key b)
    · simp [orderedInsertKey, h]
    · simp only [orderedInsertKey, if_neg h, List.mem_cons, ih]
      tauto

theorem sortedBy_orderedInsertKey (key : α → Option String) (a : α) (l : List α)
    (hl : sortedBy key l) : sortedBy key (orderedInsertKey key a l) := by
  induction l with
  | nil => simp [orderedInsertKey, sortedBy]
  | cons b l ih =>
    rw [sortedBy, List.pairwise_cons] at hl
    by_cases h : strLe (keyD key a) (keyD key b)
    · rw [sortedBy, orderedInsertKey, if_pos h, List.pairwise_cons]
      refine ⟨?_, ?_⟩
      · intro x hx
        rcases List.mem_cons.mp hx with hx | hx
        · rw [hx]
          exact h
        · exact strLe_trans _ _ _ h (hl.1 x hx)
      · rw [List.pairwise_cons]
        exact hl
    · rw [sortedBy, orderedInsertKey, if_neg h, List.pairwise_cons]
      refine ⟨?_, ih hl.2⟩
      intro x hx
      rw [mem_orderedInsertKey] at hx
      rcases hx with hx | hx
      · rw [hx]
        exact strLe_of_not_strLe _ _ h
      · exact hl.1 x hx

theorem sortedBy_insertionSortKey (key : α → Option String) (l : List α) :
    sortedBy key (insertionSortKey key l) := by
  induction l with
  | nil => simp [insertionSortKey, sortedBy]
  | cons a l ih => exact sortedBy_orderedInsertKey key a _ ih

theorem filter_orderedInsertKey (key : α → Option String) (a : α) (l : List α) (k : String) :
    (orderedInsertKey key a l).filter (fun x => keyD key x == k) =
      if keyD key a = k then a :: l.filter (fun x => keyD key x == k)
      else l.filter (fun x => keyD key x == k) := by
  induction l with
  | nil =>
    by_cases h : keyD key a = k <;>
      simp [orderedInsertKey, List.filter_cons, List.filter_nil, h]
  | cons b l ih =>
    by_cases hab : strLe (keyD key a) (keyD key b)
    · rw [orderedInsertKey, if_pos hab]
      by_cases h : keyD key a = k <;> simp [List.filter_cons, h]
    · rw [orderedInsertKey, if_neg hab]
      have hk : strLt (keyD key b) (keyD key a) = true := Bool.of_not_eq_false hab
      by_cases h : keyD key a = k
      · have hbk : keyD key b ≠ k := fun hbk => (ne_of_strLt _ _ hk) (hbk.trans h.symm)
        simp [List.filter_cons, ih, h, hbk]
      · simp [List.filter_cons, ih, h]

theorem filter_insertionSortKey (key : α → Option String) (l : List α) (k : String) :
    (insertionSortKey key l).filter (fun x => keyD key x == k) =
      l.filter (fun x => keyD key x == k) := by
  induction l with
  | nil => rfl
  | cons a l ih =>
    rw [insertionSortKey, filter_orderedInsertKey]
    by_cases h : keyD key a = k <;> simp [List.filter_cons, h, ih]

/-- `sortByString` success yields the stable by-key sort of its input. -/
theorem sortByString_sortedStableBy (key : α → Option String) (l out : List α)
    (h : sortByString key l = some out) : sortedStableBy key l out := by
  rw [sortByString] at h
  split at h
  · rename_i h1
    injection h with h
    subst h
    refine ⟨?_, fun k => rfl⟩
    cases l with
    | nil => exact List.Pairwise.nil
    | cons a t =>
      cases t with
      | nil => exact List.pairwise_singleton _ a
      | cons b t2 => simp at h1
  · split at h
    · injection h with h
      subst h
      exact ⟨sortedBy_insertionSortKey key l, fun k => filter_insertionSortKey key l k⟩
    · cases h

theorem mapMO_nil (f : α → Option β) : mapMO f [] = some [] := rfl

theorem mapMO_eq_none_of_mem (f : α → Option β) (l : List α) (a : α)
    (ha : a ∈ l) (hf : f a = none) : mapMO f l = none := by
  induction l with
  | nil => cases ha
  | cons x t ih =>
    rcases List.mem_cons.mp ha with h | h
    · subst h
      rw [mapMO, hf]
    · rw [mapMO]
      cases hx : f x with
      | none => rfl
      | some b => rw [ih h]

theorem mapMO_some_forall (f : α → Option β) (l : List α) (out : List β)
    (h : mapMO f l = some out) : ∀ a ∈ l, ∃ b, f a = some b ∧ b ∈ out := by
  induction l generalizing out with
  | nil => intro a ha; cases ha
  | cons x t ih =>
    rw [mapMO] at h
    cases hx : f x with
    | none => rw [hx] at h; cases h
    | some b =>
      rw [hx] at h
      cases ht : mapMO f t with
      | none => rw [ht] at h; cases h
      | some bs =>
        rw [ht] at h
        injection h with h
        subst h
        intro a ha
        rcases List.mem_cons.mp ha with h | h
        · subst h
          exact ⟨b, hx, List.mem_cons_self _ _⟩
        · rcases ih bs ht a h with ⟨b2, hb2, hmem⟩
          exact ⟨b2, hb2, List.mem_cons_of_mem _ hmem⟩

/-- The in-loop sort-after-append accumulation produces the stable sort of
the processed input order: generalized invariant over the accumulator. -/
theorem foldMO_appendAndSort_spec (ext : Ext) (ps : List Plugin) :
    ∀ (acc out : List Plugin), sortedBy (fun x => x.name) acc →
      foldMO (appendAndSortPlugins ext) acc ps = some out →
      ∃ l0, mapMO (processPlugin ext) ps = some l0 ∧ sortedBy (fun x => x.name) out ∧
        ∀ k, out.filter (fun x => keyD (fun y => y.name) x == k) =
          acc.filter (fun x => keyD (fun y => y.name) x == k) ++
            l0.filter (fun x => keyD (fun y => y.name) x == k) := by
  induction ps with
  | nil =>
    intro acc out hacc h
    rw [foldMO] at h
    injection h with h
    subst h
    exact ⟨[], rfl, hacc, fun k => by simp⟩
  | cons p t ih =>
    intro acc out hacc h
    rw [foldMO] at h
    cases hstep : appendAndSortPlugins ext acc p with
    | none => rw [hstep] at h; cases h
    | some acc2 =>
      rw [hstep] at h
      rw [appendAndSortPlugins] at hstep
      cases hp : processPlugin ext p with
      | none => rw [hp] at hstep; cases hstep
      | some q =>
        rw [hp] at hstep
        have hss := sortByString_sortedStableBy _ _ _ hstep
        rcases ih acc2 out hss.1 h with ⟨l0, hl0, hsorted, hfilter⟩
        refine ⟨q :: l0, ?_, hsorted, ?_⟩
        · rw [mapMO, hp, hl0]
        · intro k
          rw [hfilter k, hss.2 k]
          simp [List.filter_append, List.filter_cons]
          by_cases hq : keyD (fun y => y.name) q = k <;> simp [hq]

/-- `renderPluginsSorted` yields the stable by-name sort of the plugins
processed in input order. -/
theorem renderPluginsSorted_spec (ext : Ext) (ps : List Plugin) (out : List Plugin)
    (h : renderPluginsSorted ext ps = some out) :
    ∃ l0, mapMO (processPlugin ext) ps = some l0 ∧
      sortedStableBy (fun x => x.name) l0 out := by
  rcases foldMO_appendAndSort_spec ext ps [] out (List.Pairwise.nil) h with
    ⟨l0, hl0, hsorted, hfilter⟩
  exact ⟨l0, hl0, hsorted, fun k => by simpa using hfilter k⟩

/-- Destructuring of a successful `renderService`. -/
theorem renderService_some_spec (ext : Ext) (s : KSService) (fs : FService)
    (h : renderService ext s = some fs) :
    renderPluginsSorted ext s.plugins = some fs.plugins ∧
      ∃ rs, mapMO (renderRoute ext) s.routes = some rs ∧
        sortByString (fun r => r.route.name) rs = some fs.routes ∧
        fs.service = s.service := by
  rw [renderService] at h
  cases h1 : renderPluginsSorted ext s.plugins with
  | none => rw [h1] at h; cases h
  | some ps =>
    simp only [h1] at h
    cases h2 : mapMO (renderRoute ext) s.routes with
    | none => rw [h2] at h; cases h
    | some rs =>
      simp only [h2] at h
      cases h3 : sortByString (fun r => r.route.name) rs with
      | none => rw [h3] at h; cases h
      | some rs2 =>
        simp only [h3] at h
        injection h with h
        subst h
        exact ⟨rfl, rs, rfl, h3, rfl⟩

/-- Destructuring of a successful `renderRoute`. -/
theorem renderRoute_some_spec (ext : Ext) (r : KSRoute) (fr : FRoute)
    (h : renderRoute ext r = some fr) :
    renderPluginsSorted ext r.plugins = some fr.plugins ∧ fr.route = fillRoute r.route := by
  rw [renderRoute] at h
  cases h1 : renderPluginsSorted ext r.plugins with
  | none => rw [h1] at h; cases h
  | some ps =>
    simp only [h1] at h
    injection h with h
    subst h
    exact ⟨rfl, rfl⟩

/-- Destructuring of a successful `renderUpstream`. -/
theorem renderUpstream_some_spec (u : KSUpstream) (fu : FUpstream)
    (h : renderUpstream u = some fu) :
    sortByString (fun t => t.target) u.targets = some fu.targets ∧
      fu.upstream = fillUpstream u.upstream := by
  rw [renderUpstream] at h
  cases h1 : sortByString (fun t => t.target) u.targets with
  | none => rw [h1] at h; cases h
  | some ts =>
    simp only [h1] at h
    injection h with h
    subst h
    exact ⟨rfl, rfl⟩

/-- Destructuring of a successful `renderConsumer`: the consumer and its
plugin list are copied unchanged (input order), each credential collection
is the result of `sortByString`. -/
theorem renderConsumer_some_spec (c : KSConsumer) (fc : FConsumer)
    (h : renderConsumer c = some fc) :
    fc.consumer = c.consumer ∧ fc.plugins = c.plugins ∧
      sortByString (fun a => a.key) c.keyAuths = some fc.keyAuths ∧
      sortByString (fun a => a.username) c.hmacAuths = some fc.hmacAuths ∧
      sortByString (fun a => a.username) c.basicAuths = some fc.basicAuths ∧
      sortByString (fun a => a.key) c.jwtAuths = some fc.jwtAuths ∧
      sortByString (fun a => a.clientID) c.oauth2Creds = some fc.oauth2Creds := by
  rw [renderConsumer] at h
  cases h1 : sortByString (fun a => a.key) c.keyAuths with
  | none => rw [h1] at h; cases h
  | some keyAuths =>
    simp only [h1] at h
    cases h2 : sortByString (fun a => a.username) c.hmacAuths with
    | none => rw [h2] at h; cases h
    | some hmacAuths =>
      simp only [h2] at h
      cases h3 : sortByString (fun a => a.username) c.basicAuths with
      | none => rw [h3] at h; cases h
      | some basicAuths =>
        simp only [h3] at h
        cases h4 : sortByString (fun a => a.key) c.jwtAuths with
        | none => rw [h4] at h; cases h
        | some jwtAuths =>
          simp only [h4] at h
          cases h5 : sortByString (fun a => a.clientID) c.oauth2Creds with
          | none => rw [h5] at h; cases h
          | some oauth2Creds =>
            simp only [h5] at h
            injection h with h
            subst h
            exact ⟨rfl, rfl, rfl, rfl, rfl, rfl, rfl⟩

/-- Destructuring of a successful `toDeckContent`: every top-level
collection is the `sortByString` image of the collection rendered in input
order, the top-level route list is empty, and the metadata fields are as
constructed. -/
theorem toDeckContent_some_spec (ext : Ext) (cfg : Cfg) (st : KongState) (c : Content)
    (h : toDeckContent ext cfg st = some c) :
    (∃ l, mapMO (renderService ext) st.services = some l ∧
      sortByString (fun s => s.service.name) l = some c.services) ∧
    (∃ l, mapMO (processPlugin ext) st.plugins = some l ∧
      sortByString (fun p => some (pluginString p)) l = some c.plugins) ∧
    (∃ l, mapMO renderUpstream st.upstreams = some l ∧
      sortByString (fun u => u.upstream.name) l = some c.upstreams) ∧
    (∃ l, mapMO getFCertificateFromKongCert st.certificates = some l ∧
      sortByString (fun cert => cert.cert) l = some c.certificates) ∧
    sortByString (fun cert => cert.cert) st.caCertificates = some c.caCertificates ∧
    (∃ l, mapMO renderConsumer st.consumers = some l ∧
      sortByString (fun cons => cons.consumer.username) l = some c.consumers) ∧
    c.routes = [] ∧ c.formatVersion = FormatVersion := by
  rw [toDeckContent] at h
  cases h1 : mapMO (renderService ext) st.services with
  | none => rw [h1] at h; cases h
  | some services0 =>
    simp only [h1] at h
    cases h2 : sortByString (fun s => s.service.name) services0 with
    | none => rw [h2] at h; cases h
    | some services =>
      simp only [h2] at h
      cases h3 : mapMO (processPlugin ext) st.plugins with
      | none => rw [h3] at h; cases h
      | some plugins0 =>
        simp only [h3] at h
        cases h4 : sortByString (fun p => some (pluginString p)) plugins0 with
        | none => rw [h4] at h; cases h
        | some plugins =>
          simp only [h4] at h
          cases h5 : mapMO renderUpstream st.upstreams with
          | none => rw [h5] at h; cases h
          | some upstreams0 =>
            simp only [h5] at h
            cases h6 : sortByString (fun u => u.upstream.name) upstreams0 with
            | none => rw [h6] at h; cases h
            | some upstreams =>
              simp only [h6] at h
              cases h7 : mapMO getFCertificateFromKongCert st.certificates with
              | none => rw [h7] at h; cases h
              | some certs0 =>
                simp only [h7] at h
                cases h8 : sortByString (fun cert => cert.cert) certs0 with
                | none => rw [h8] at h; cases h
                | some certificates =>
                  simp only [h8] at h
                  cases h9 : sortByString (fun cert => cert.cert) st.caCertificates with
                  | none => rw [h9] at h; cases h
                  | some caCertificates =>
                    simp only [h9] at h
                    cases h10 : mapMO renderConsumer st.consumers with
                    | none => rw [h10] at h; cases h
                    | some consumers0 =>
                      simp only [h10] at h
                      cases h11 : sortByString (fun cons => cons.consumer.username) consumers0 with
                      | none => rw [h11] at h; cases h
                      | some consumers =>
                        simp only [h11] at h
                        injection h with h
                        subst h
                        exact ⟨⟨services0, rfl, h2⟩, ⟨plugins0, rfl, h4⟩,
                          ⟨upstreams0, rfl, h6⟩, ⟨certs0, rfl, h8⟩, rfl,
                          ⟨consumers0, rfl, h11⟩, rfl, rfl⟩

/-- A plugin whose `Name` pointer is nil makes `processPlugin` panic: the
`fillPlugin` error triggers the `Errorf` that dereferences the name. -/
theorem processPlugin_name_none (ext : Ext) (p : Plugin) (h : p.name = none) :
    processPlugin ext p = none := by
  simp [processPlugin, fillPlugin, fillPluginRun, h]

theorem lookupStr_append (k : String) (l1 l2 : List (String × Json)) :
    lookupStr k (l1 ++ l2) =
      match lookupStr k l1 with
      | some v => some v
      | none => lookupStr k l2 := by
  induction l1 with
  | nil => rfl
  | cons kv rest ih =>
    by_cases h : kv.1 = k
    · simp [lookupStr, h]
    · simp [lookupStr, h, ih]

theorem lookupStr_filter_core (k : String) (core custom : List (String × Json))
    (hnone : lookupStr k core = none) :
    lookupStr k (custom.filter (fun kv => (lookupStr kv.1 core).isNone)) =
      lookupStr k custom := by
  induction custom with
  | nil => rfl
  | cons kv rest ih =>
    by_cases hk : kv.1 = k
    · have hpk : (lookupStr kv.1 core).isNone = true := by
        rw [hk, hnone]
        rfl
      rw [List.filter_cons, if_pos hpk]
      simp [lookupStr, hk]
    · cases hp : (lookupStr kv.1 core).isNone with
      | true =>
        rw [List.filter_cons, if_pos hp]
        simp [lookupStr, hk, ih]
      | false =>
        rw [List.filter_cons, if_neg (by simp [hp])]
        simp [lookupStr, hk, ih]

/-- The lookup characterization of the custom-entity merge: core keys win,
keys absent from the core come from the custom blob. -/
theorem lookupStr_mergeFields (k : String) (core custom : List (String × Json)) :
    lookupStr k (mergeFields core custom) =
      match lookupStr k core with
      | some v => some v
      | none => lookupStr k custom := by
  rw [mergeFields, lookupStr_append]
  cases h : lookupStr k core with
  | some v => rfl
  | none => simp [lookupStr_filter_core k core custom h]

/-- In DB mode no custom entities are ever fetched. -/
theorem customEntitiesFor_of_not_inMemory (w : World) (n : KongController)
    (h : n.cfg.inMemory = false) : customEntitiesFor w n = none := by
  rw [customEntitiesFor, if_neg]
  intro hc
  rw [h] at hc
  exact absurd hc.1 (by simp)

/-- The in-memory strategy always performs exactly one gateway interaction:
the POST of the cleaned, merged document to `/config`. -/
theorem onUpdateInMemoryMode_eq (ext : Ext) (w : World) (state : Content)
    (ce : Option Bytes) :
    onUpdateInMemoryMode ext w state ce =
      ((match w.configPush with
        | some e => some (Err.go ("posting new config to /config: " ++ e))
        | none => none),
       [Effect.configPush (renderConfigWithCustomEntities ext
         (cleanUpNullsInPluginConfigs { state with info := none }) ce)]) := by
  rw [onUpdateInMemoryMode]
  cases w.configPush <;> rfl

/-- The DB-mode strategy always performs the dump call against the gateway. -/
theorem dump_mem_onUpdateDBMode (w : World) : Effect.dump ∈ (onUpdateDBMode w).2 := by
  rw [onUpdateDBMode]
  cases hd : w.dump with
  | error e => simp
  | ok u =>
    cases hc : w.currentState with
    | error e => simp
    | ok u2 =>
      cases hf : w.fileGet with
      | error e => simp
      | ok u3 =>
        cases ht : w.targetState with
        | error e => simp
        | ok u4 =>
          cases hs : w.newSyncer with
          | error e => simp
          | ok u5 => by_cases hv : w.solve = [] <;> simp [hv]

/-- When the pipeline reaches the solver and it reports errors, the DB-mode
strategy returns the composite `ErrArray` and has called the gateway. -/
theorem onUpdateDBMode_solver_errors (w : World)
    (hdump : w.dump = Except.ok ()) (hcur : w.currentState = Except.ok ())
    (hfile : w.fileGet = Except.ok ()) (htgt : w.targetState = Except.ok ())
    (hsync : w.newSyncer = Except.ok ()) (hsolve : w.solve ≠ []) :
    onUpdateDBMode w = (some (Err.errArray w.solve), [Effect.dump, Effect.solve]) := by
  rw [onUpdateDBMode]
  simp only [hdump, hcur, hfile, htgt, hsync]
  rw [if_neg hsolve]

/-- `OnUpdate` when the skip condition fails: dispatch to the selected
strategy and advance the fingerprint only on success. -/
theorem OnUpdate_dispatch (ext : Ext) (w : World) (n : KongController) (st : KongState)
    (tc : Content)
    (hrender : toDeckContent ext n.cfg st = some tc)
    (hns : ¬ (n.cfg.enableReverseSync = false ∧
      n.runningConfigHash = (if n.cfg.enableReverseSync then none
        else some (generateSHA ext tc (customEntitiesFor w n))))) :
    OnUpdate ext w n st =
      (let res := if n.cfg.inMemory then
          onUpdateInMemoryMode ext w tc (customEntitiesFor w n)
        else onUpdateDBMode w
       match res.1 with
       | some e => some (n, some e, res.2)
       | none => some ({ n with runningConfigHash :=
           (if n.cfg.enableReverseSync then none
            else some (generateSHA ext tc (customEntitiesFor w n))) }, none, res.2)) := by
  simp only [OnUpdate, hrender]
  rw [if_neg hns]

/-- Whenever the skip condition fails, the invocation dispatches to a
strategy and performs at least one gateway interaction. -/
theorem OnUpdate_dispatch_effects (ext : Ext) (w : World) (n : KongController)
    (st : KongState) (tc : Content)
    (hrender : toDeckContent ext n.cfg st = some tc)
    (hns : ¬ (n.cfg.enableReverseSync = false ∧
      n.runningConfigHash = (if n.cfg.enableReverseSync then none
        else some (generateSHA ext tc (customEntitiesFor w n))))) :
    ∃ n2 e effs, OnUpdate ext w n st = some (n2, e, effs) ∧ effs ≠ [] := by
  rw [OnUpdate_dispatch ext w n st tc hrender hns]
  cases him : n.cfg.inMemory with
  | true =>
    simp only [him, if_true]
    rw [onUpdateInMemoryMode_eq]
    cases hp : w.configPush with
    | some e =>
      exact ⟨n, some (Err.go ("posting new config to /config: " ++ e)), _, rfl, by simp⟩
    | none =>
      exact ⟨_, none, _, rfl, by simp⟩
  | false =>
    simp only [him, Bool.false_eq_true, if_false]
    cases hr : (onUpdateDBMode w).1 with
    | some e =>
      exact ⟨n, some e, (onUpdateDBMode w).2, rfl,
        List.ne_nil_of_mem (dump_mem_onUpdateDBMode w)⟩
    | none =>
      exact ⟨_, none, (onUpdateDBMode w).2, rfl,
        List.ne_nil_of_mem (dump_mem_onUpdateDBMode w)⟩

/-- A 32-byte digest is never the empty byte string. -/
theorem generateSHA_ne_nil (ext : Ext) (tc : Content) (ce : Option Bytes)
    (hlen : ∀ b, (ext.sha256 b).length = 32) : generateSHA ext tc ce ≠ [] := by
  intro h
  have h32 := congrArg List.length h
  simp [generateSHA, hlen] at h32

/-- The canonicalizer reads the configuration only through the selector
tags. -/
theorem toDeckContent_cfg_congr (ext : Ext) (cfg cfg2 : Cfg) (st : KongState)
    (h : getIngressControllerTags cfg = getIngressControllerTags cfg2) :
    toDeckContent ext cfg st = toDeckContent ext cfg2 st := by
  simp only [toDeckContent, h]

/-! ## Claim theorems -/

/-- Claim C7: `fillRoute` sets `HTTPSRedirectStatusCode` to 426 exactly when
it is unset and `PathHandling` to `v0` exactly when it is unset, preserving
explicitly set values; `fillUpstream` sets `Algorithm` to `round-robin`
exactly when it is unset, preserving an explicit value. -/
theorem claim_C7_default_completion (r : Route) (u : Upstream) :
    (fillRoute r).httpsRedirectStatusCode = some (r.httpsRedirectStatusCode.getD 426) ∧
    (fillRoute r).pathHandling = some (r.pathHandling.getD "v0") ∧
    (fillRoute r).name = r.name ∧
    (fillUpstream u).algorithm = some (u.algorithm.getD "round-robin") ∧
    (fillUpstream u).name = u.name := by
  unfold fillRoute fillUpstream
  rcases r with ⟨nm, code, ph⟩
  rcases u with ⟨un, alg⟩
  cases code <;> cases ph <;> cases alg <;> simp

/-- Claim C3 (code bug): Strategy A's null stripping misses plugins attached
to routes.  In the document produced by the canonicalizer, routes live under
services, but `cleanUpNullsInPluginConfigs` iterates the always-empty
top-level route collection, so the null entry of a route-attached plugin
config survives, while the identical service-attached plugin config is
stripped to keep only the non-null entry. -/
theorem claim_C3_route_plugin_nulls_survive :
    (cleanUpNullsInPluginConfigs cNulls).services.map
        (fun s => s.routes.map (fun r => r.plugins.map Plugin.config)) =
      [[[some [("a", Json.null), ("b", Json.num 1)]]]] ∧
    (cleanUpNullsInPluginConfigs cNulls).services.map
        (fun s => s.plugins.map Plugin.config) =
      [[some [("b", Json.num 1)]]] :=
  ⟨rfl, rfl⟩

/-- Claim C9: a service-, route-, or top-level plugin with a nil `Name`
makes `fillPlugin` return the name-missing error, and the subsequent
error-logging dereference of the nil name is a panic: rendering the whole
desired state aborts (`none`) instead of emitting the plugin best-effort. -/
theorem claim_C9_nil_plugin_name_panics :
    (∀ (ext : Ext) (p : Plugin), p.name = none →
      (fillPlugin ext (some p)).1 = some "plugin does not have a name" ∧
      processPlugin ext p = none) ∧
    (∀ (ext : Ext) (cfg : Cfg) (st : KongState),
      ((∃ s ∈ st.services, (∃ p ∈ s.plugins, p.name = none) ∨
          ∃ r ∈ s.routes, ∃ p ∈ r.plugins, p.name = none) ∨
        (∃ p ∈ st.plugins, p.name = none)) →
      toDeckContent ext cfg st = none) := by
  constructor
  · intro ext p h
    refine ⟨?_, processPlugin_name_none ext p h⟩
    simp [fillPlugin, fillPluginRun, h]
  · intro ext cfg st hbad
    cases htd : toDeckContent ext cfg st with
    | none => rfl
    | some c =>
      exfalso
      rcases toDeckContent_some_spec ext cfg st c htd with
        ⟨⟨ls, hls, _⟩, ⟨lp, hlp, _⟩, _⟩
      rcases hbad with ⟨s, hs, hsp | ⟨r, hr, p, hp, hname⟩⟩ | ⟨p, hp, hname⟩
      · rcases hsp with ⟨p, hp, hname⟩
        rcases mapMO_some_forall _ _ _ hls s hs with ⟨fs, hfs, _⟩
        rcases renderService_some_spec ext s fs hfs with ⟨hplug, _⟩
        rcases renderPluginsSorted_spec ext s.plugins fs.plugins hplug with ⟨l0, hl0, _⟩
        rcases mapMO_some_forall _ _ _ hl0 p hp with ⟨q, hq, _⟩
        rw [processPlugin_name_none ext p hname] at hq
        cases hq
      · rcases mapMO_some_forall _ _ _ hls s hs with ⟨fs, hfs, _⟩
        rcases renderService_some_spec ext s fs hfs with ⟨_, rs, hrs, _⟩
        rcases mapMO_some_forall _ _ _ hrs r hr with ⟨fr, hfr, _⟩
        rcases renderRoute_some_spec ext r fr hfr with ⟨hplug, _⟩
        rcases renderPluginsSorted_spec ext r.plugins fr.plugins hplug with ⟨l0, hl0, _⟩
        rcases mapMO_some_forall _ _ _ hl0 p hp with ⟨q, hq, _⟩
        rw [processPlugin_name_none ext p hname] at hq
        cases hq
      · rcases mapMO_some_forall _ _ _ hlp p hp with ⟨q, hq, _⟩
        rw [processPlugin_name_none ext p hname] at hq
        cases hq

/-- Claim C4: with no custom-entity bytes (nil or empty) the serialized core
document is returned unchanged; with a parseable custom blob the result is
the serialization of the core top-level mapping extended with exactly the
custom keys absent from the core, core values winning on every conflict. -/
theorem claim_C4_custom_entity_merge :
    (∀ (ext : Ext) (state : Content),
      renderConfigWithCustomEntities ext state none = marshalContent state ∧
      renderConfigWithCustomEntities ext state (some []) = marshalContent state) ∧
    (∀ (ext : Ext) (state : Content) (cb : Bytes) (fields : List (String × Json)),
      cb ≠ [] → ext.parseObj cb = some fields →
      renderConfigWithCustomEntities ext state (some cb) =
        encodeObjSorted (mergeFields (contentObj state) fields) ∧
      ∀ k, lookupStr k (mergeFields (contentObj state) fields) =
        match lookupStr k (contentObj state) with
        | some v => some v
        | none => lookupStr k fields) := by
  constructor
  · intro ext state
    exact ⟨rfl, rfl⟩
  · intro ext state cb fields hne hparse
    refine ⟨?_, fun k => lookupStr_mergeFields k _ _⟩
    rw [renderConfigWithCustomEntities]
    simp only [Option.getD_some]
    rw [if_neg (fun h => hne (List.length_eq_zero.mp h)), hparse]

/-- Witness for claim C4: the empty core document, a one-byte custom blob
parsed as `(extra ↦ 2)`. -/
theorem claim_C4_custom_entity_merge_witness :
    renderConfigWithCustomEntities extW contentEmpty none = marshalContent contentEmpty ∧
    renderConfigWithCustomEntities extW contentEmpty (some [1]) =
      encodeObjSorted (mergeFields (contentObj contentEmpty) [("extra", Json.num 2)]) ∧
    lookupStr "extra" (mergeFields (contentObj contentEmpty) [("extra", Json.num 2)]) =
      some (Json.num 2) := by
  refine ⟨(claim_C4_custom_entity_merge.1 extW contentEmpty).1, ?_, ?_⟩
  · exact (claim_C4_custom_entity_merge.2 extW contentEmpty [1] [("extra", Json.num 2)]
      (by decide) rfl).1
  · have h := (claim_C4_custom_entity_merge.2 extW contentEmpty [1] [("extra", Json.num 2)]
      (by decide) rfl).2 "extra"
    rw [h]
    rfl

/-- Claim C5 (amended): in the canonical document, every same-type sibling
collection EXCEPT the consumer-attached plugin lists is the stable sort of
its in-input-order rendering by its natural key; consumer-attached plugin
lists are emitted in input order without sorting. -/
theorem claim_C5_amended :
    (∀ (ext : Ext) (cfg : Cfg) (st : KongState) (c : Content),
      toDeckContent ext cfg st = some c →
      (∃ l, mapMO (renderService ext) st.services = some l ∧
        sortedStableBy (fun s => s.service.name) l c.services) ∧
      (∃ l, mapMO (processPlugin ext) st.plugins = some l ∧
        sortedStableBy (fun p => some (pluginString p)) l c.plugins) ∧
      (∃ l, mapMO renderUpstream st.upstreams = some l ∧
        sortedStableBy (fun u => u.upstream.name) l c.upstreams) ∧
      (∃ l, mapMO getFCertificateFromKongCert st.certificates = some l ∧
        sortedStableBy (fun cert => cert.cert) l c.certificates) ∧
      sortedStableBy (fun cert => cert.cert) st.caCertificates c.caCertificates ∧
      (∃ l, mapMO renderConsumer st.consumers = some l ∧
        sortedStableBy (fun cons => cons.consumer.username) l c.consumers)) ∧
    (∀ (ext : Ext) (s : KSService) (fs : FService), renderService ext s = some fs →
      (∃ l, mapMO (processPlugin ext) s.plugins = some l ∧
        sortedStableBy (fun p => p.name) l fs.plugins) ∧
      (∃ l, mapMO (renderRoute ext) s.routes = some l ∧
        sortedStableBy (fun r => r.route.name) l fs.routes)) ∧
    (∀ (ext : Ext) (r : KSRoute) (fr : FRoute), renderRoute ext r = some fr →
      ∃ l, mapMO (processPlugin ext) r.plugins = some l ∧
        sortedStableBy (fun p => p.name) l fr.plugins) ∧
    (∀ (u : KSUpstream) (fu : FUpstream), renderUpstream u = some fu →
      sortedStableBy (fun t => t.target) u.targets fu.targets) ∧
    (∀ (k : KSConsumer) (fc : FConsumer), renderConsumer k = some fc →
      fc.plugins = k.plugins ∧
      sortedStableBy (fun a => a.key) k.keyAuths fc.keyAuths ∧
      sortedStableBy (fun a => a.username) k.hmacAuths fc.hmacAuths ∧
      sortedStableBy (fun a => a.username) k.basicAuths fc.basicAuths ∧
      sortedStableBy (fun a => a.key) k.jwtAuths fc.jwtAuths ∧
      sortedStableBy (fun a => a.clientID) k.oauth2Creds fc.oauth2Creds) := by
  refine ⟨?_, ?_, ?_, ?_, ?_⟩
  · intro ext cfg st c h
    rcases toDeckContent_some_spec ext cfg st c h with
      ⟨⟨ls, hls, hs2⟩, ⟨lp, hlp, hp2⟩, ⟨lu, hlu, hu2⟩, ⟨lc, hlc, hc2⟩, hca, ⟨lk, hlk, hk2⟩, _, _⟩
    exact ⟨⟨ls, hls, sortByString_sortedStableBy _ _ _ hs2⟩,
           ⟨lp, hlp, sortByString_sortedStableBy _ _ _ hp2⟩,
           ⟨lu, hlu, sortByString_sortedStableBy _ _ _ hu2⟩,
           ⟨lc, hlc, sortByString_sortedStableBy _ _ _ hc2⟩,
           sortByString_sortedStableBy _ _ _ hca,
           ⟨lk, hlk, sortByString_sortedStableBy _ _ _ hk2⟩⟩
  · intro ext s fs h
    rcases renderService_some_spec ext s fs h with ⟨hplug, rs, hrs, hsort, _⟩
    rcases renderPluginsSorted_spec ext s.plugins fs.plugins hplug with ⟨l0, hl0, hss⟩
    exact ⟨⟨l0, hl0, hss⟩, ⟨rs, hrs, sortByString_sortedStableBy _ _ _ hsort⟩⟩
  · intro ext r fr h
    rcases renderRoute_some_spec ext r fr h with ⟨hplug, _⟩
    rcases renderPluginsSorted_spec ext r.plugins fr.plugins hplug with ⟨l0, hl0, hss⟩
    exact ⟨l0, hl0, hss⟩
  · intro u fu h
    rcases renderUpstream_some_spec u fu h with ⟨hsort, _⟩
    exact sortByString_sortedStableBy _ _ _ hsort
  · intro k fc h
    rcases renderConsumer_some_spec k fc h with ⟨_, hpl, h1, h2, h3, h4, h5⟩
    exact ⟨hpl, sortByString_sortedStableBy _ _ _ h1, sortByString_sortedStableBy _ _ _ h2,
           sortByString_sortedStableBy _ _ _ h3, sortByString_sortedStableBy _ _ _ h4,
           sortByString_sortedStableBy _ _ _ h5⟩

/-- Counterexample to claim C5 as stated: a consumer with plugins named
`[b, a]` renders with its plugin list still `[b, a]`, which is not sorted by
the plugin-name natural key — consumer-attached plugin collections are
never sorted. -/
theorem claim_C5_counterexample :
    toDeckContent extW cfgDB stConsumerPlugins = some cConsumerPlugins ∧
    cConsumerPlugins.consumers.map (fun c => c.plugins) = [[plugB, plugA]] ∧
    ¬ sortedBy (fun p => p.name) [plugB, plugA] := by
  refine ⟨rfl, rfl, ?_⟩
  intro h
  rw [sortedBy, List.pairwise_cons] at h
  have hba := h.1 plugA (List.mem_singleton.mpr rfl)
  exact absurd hba (by decide)

/-- Witness for claim C5 (amended) at a concrete upstream with two targets
and a concrete consumer with two key-auth credentials, both out of order. -/
theorem claim_C5_amended_witness :
    sortedStableBy (fun t => t.target) upW.targets fupW.targets ∧
    sortedStableBy (fun a => a.key) consW.keyAuths fconsW.keyAuths :=
  ⟨claim_C5_amended.2.2.2.1 upW fupW rfl,
   (claim_C5_amended.2.2.2.2 consW fconsW rfl).2.1⟩

/-- Claim C2: with reverse sync disabled, when the fingerprint of the
rendered document (with the fetched custom-entity bytes) is byte-equal to
the stored fingerprint, `OnUpdate` returns success immediately: no strategy
is invoked (no gateway interaction) and the controller state — in
particular the stored fingerprint — is unchanged. -/
theorem claim_C2_noop_skip (ext : Ext) (w : World) (n : KongController) (st : KongState)
    (tc : Content)
    (hrender : toDeckContent ext n.cfg st = some tc)
    (hrs : n.cfg.enableReverseSync = false)
    (hhash : n.runningConfigHash = some (generateSHA ext tc (customEntitiesFor w n))) :
    OnUpdate ext w n st = some (n, none, []) := by
  simp only [OnUpdate, hrender, hrs]
  rw [if_pos ⟨trivial, by simpa using hhash⟩]

/-- Witness for claim C2 at the empty desired state with a matching stored
fingerprint. -/
theorem claim_C2_noop_skip_witness :
    OnUpdate extW worldOk nSkip stEmpty = some (nSkip, none, []) :=
  claim_C2_noop_skip extW worldOk nSkip stEmpty contentEmpty rfl rfl rfl

/-- Claim C6: with reverse sync enabled the fingerprint comparison is
bypassed: whatever the stored fingerprint (even one matching the desired
state), the invocation dispatches to the selected strategy and performs a
gateway interaction. -/
theorem claim_C6_forced_mode_bypass (ext : Ext) (w : World) (n : KongController)
    (st : KongState) (tc : Content)
    (hrender : toDeckContent ext n.cfg st = some tc)
    (hrs : n.cfg.enableReverseSync = true) :
    ∃ n2 e effs, OnUpdate ext w n st = some (n2, e, effs) ∧ effs ≠ [] := by
  refine OnUpdate_dispatch_effects ext w n st tc hrender ?_
  rw [hrs]
  rintro ⟨hc, _⟩
  cases hc

/-- Witness for claim C6: reverse sync forces a gateway call even though
the stored fingerprint matches the (empty) desired state exactly. -/
theorem claim_C6_forced_mode_bypass_witness :
    ∃ n2 e effs,
      OnUpdate extW worldOk
        { cfg := { cfgDB with enableReverseSync := true },
          runningConfigHash := some (generateSHA extW contentEmpty none) } stEmpty =
        some (n2, e, effs) ∧ effs ≠ [] :=
  claim_C6_forced_mode_bypass extW worldOk _ stEmpty contentEmpty rfl rfl

/-- Claim C1: with the solver (Strategy B) reporting a non-empty error
list, `OnUpdate` returns the composite error aggregating exactly those
errors, leaves the stored fingerprint unchanged, and a subsequent
invocation with the identical desired state does not skip: it reaches the
gateway (dump call) again. -/
theorem claim_C1_solver_failure_keeps_fingerprint (ext : Ext) (w : World)
    (n : KongController) (st : KongState) (tc : Content)
    (hrender : toDeckContent ext n.cfg st = some tc)
    (hmem : n.cfg.inMemory = false)
    (hrs : n.cfg.enableReverseSync = false)
    (hneq : n.runningConfigHash ≠ some (generateSHA ext tc none))
    (hdump : w.dump = Except.ok ()) (hcur : w.currentState = Except.ok ())
    (hfile : w.fileGet = Except.ok ()) (htgt : w.targetState = Except.ok ())
    (hsync : w.newSyncer = Except.ok ()) (hsolve : w.solve ≠ []) :
    OnUpdate ext w n st = some (n, some (Err.errArray w.solve), [Effect.dump, Effect.solve]) ∧
    ∀ w2 : World, ∃ n2 e effs, OnUpdate ext w2 n st = some (n2, e, effs) ∧
      Effect.dump ∈ effs := by
  have hns : ∀ w3 : World, ¬ (n.cfg.enableReverseSync = false ∧
      n.runningConfigHash = (if n.cfg.enableReverseSync then none
        else some (generateSHA ext tc (customEntitiesFor w3 n)))) := by
    intro w3
    rintro ⟨_, hh⟩
    rw [customEntitiesFor_of_not_inMemory w3 n hmem, hrs] at hh
    simp only [Bool.false_eq_true, if_false] at hh
    exact hneq hh
  constructor
  · rw [OnUpdate_dispatch ext w n st tc hrender (hns w)]
    simp only [hmem, Bool.false_eq_true, if_false]
    rw [onUpdateDBMode_solver_errors w hdump hcur hfile htgt hsync hsolve]
  · intro w2
    rw [OnUpdate_dispatch ext w2 n st tc hrender (hns w2)]
    simp only [hmem, Bool.false_eq_true, if_false]
    cases hr : (onUpdateDBMode w2).1 with
    | some e =>
      exact ⟨n, some e, (onUpdateDBMode w2).2, rfl, dump_mem_onUpdateDBMode w2⟩
    | none =>
      exact ⟨_, none, (onUpdateDBMode w2).2, rfl, dump_mem_onUpdateDBMode w2⟩

/-- Witness for claim C1: a fresh DB-mode controller against a world whose
solver reports two errors. -/
theorem claim_C1_solver_failure_keeps_fingerprint_witness :
    OnUpdate extW worldSolverFail nFreshDB stEmpty =
      some (nFreshDB, some (Err.errArray worldSolverFail.solve),
        [Effect.dump, Effect.solve]) ∧
    ∀ w2 : World, ∃ n2 e effs, OnUpdate extW w2 nFreshDB stEmpty = some (n2, e, effs) ∧
      Effect.dump ∈ effs :=
  claim_C1_solver_failure_keeps_fingerprint extW worldSolverFail nFreshDB stEmpty
    contentEmpty rfl rfl rfl (by simp [nFreshDB]) rfl rfl rfl rfl rfl
    (by simp [worldSolverFail, worldOk])

/-- Claim C10: with reverse sync enabled no fingerprint is computed, and a
successful forced sync overwrites the stored fingerprint with the nil
value; a later invocation with reverse sync disabled and the unchanged
desired state computes a non-empty fingerprint, finds it unequal to the
stored nil fingerprint, does not skip, and performs a gateway call. -/
theorem claim_C10_forced_success_clears_fingerprint (ext : Ext) (w w2 : World)
    (n : KongController) (st : KongState) (tc : Content)
    (n1 : KongController) (effs : List Effect)
    (hrender : toDeckContent ext n.cfg st = some tc)
    (hrs : n.cfg.enableReverseSync = true)
    (hlen : ∀ b, (ext.sha256 b).length = 32)
    (hrun : OnUpdate ext w n st = some (n1, none, effs)) :
    n1.runningConfigHash = none ∧
    generateSHA ext tc (customEntitiesFor w2
      { n1 with cfg := { n1.cfg with enableReverseSync := false } }) ≠ [] ∧
    ∃ n3 e effs2,
      OnUpdate ext w2 { n1 with cfg := { n1.cfg with enableReverseSync := false } } st =
        some (n3, e, effs2) ∧ effs2 ≠ [] := by
  have hns : ¬ (n.cfg.enableReverseSync = false ∧
      n.runningConfigHash = (if n.cfg.enableReverseSync then none
        else some (generateSHA ext tc (customEntitiesFor w n)))) := by
    rw [hrs]
    rintro ⟨hc, _⟩
    cases hc
  rw [OnUpdate_dispatch ext w n st tc hrender hns] at hrun
  simp only [hrs, if_true] at hrun
  have hn1 : n1 = { n with runningConfigHash := none } := by
    cases hr : (if n.cfg.inMemory then onUpdateInMemoryMode ext w tc (customEntitiesFor w n)
        else onUpdateDBMode w).1 with
    | some e =>
      rw [hr] at hrun
      simp at hrun
    | none =>
      rw [hr] at hrun
      simp at hrun
      exact hrun.1.symm
  subst hn1
  refine ⟨rfl, generateSHA_ne_nil ext tc _ hlen, ?_⟩
  refine OnUpdate_dispatch_effects ext w2 _ st tc ?_ ?_
  · exact (toDeckContent_cfg_congr ext _ n.cfg st rfl).trans hrender
  · rintro ⟨_, hh⟩
    simp at hh

/-- Witness for claim C10: a forced in-memory sync at the empty state,
followed by an unforced invocation on the controller it leaves behind. -/
theorem claim_C10_forced_success_clears_fingerprint_witness :
    nRevMem.runningConfigHash = none ∧
    generateSHA extW contentEmpty (customEntitiesFor worldOk
      { nRevMem with cfg := { nRevMem.cfg with enableReverseSync := false } }) ≠ [] ∧
    ∃ n3 e effs2,
      OnUpdate extW worldOk
        { nRevMem with cfg := { nRevMem.cfg with enableReverseSync := false } } stEmpty =
        some (n3, e, effs2) ∧ effs2 ≠ [] :=
  claim_C10_forced_success_clears_fingerprint extW worldOk worldOk nRevMem stEmpty
    contentEmpty nRevMem
    [Effect.configPush (renderConfigWithCustomEntities extW
      (cleanUpNullsInPluginConfigs { contentEmpty with info := none }) none)]
    rfl rfl (fun b => by simp [extW]) rfl

/-- Claim C8 counterexample: a malformed custom-entities secret reference
(no `/`) does NOT abort the invocation — `OnUpdate` logs the parse failure,
proceeds without custom entities, and returns success. -/
theorem claim_C8_counterexample :
    ParseNameNS nBadRef.cfg.kongCustomEntitiesSecret =
      Except.error "invalid format (namespace/name) found in no-slash-here" ∧
    (OnUpdate extW worldOk nBadRef stEmpty).map (fun r => r.2.1) = some none :=
  ⟨rfl, rfl⟩

/-- Claim C8 (amended): every failure of `fetchCustomEntities` — a
malformed `ns/name` reference just as a secret-fetch failure — is
non-fatal: the custom-entity bytes stay nil, and the invocation proceeds
(succeeding whenever the selected strategy succeeds). -/
theorem claim_C8_amended (ext : Ext) (w : World) (n : KongController) (st : KongState)
    (tc : Content) (e : GoErr)
    (hrender : toDeckContent ext n.cfg st = some tc)
    (hfetch : fetchCustomEntities w n.cfg.kongCustomEntitiesSecret = Except.error e) :
    customEntitiesFor w n = none ∧
    (n.cfg.inMemory = true → n.cfg.enableReverseSync = false → n.runningConfigHash = none →
      w.configPush = none →
      OnUpdate ext w n st =
        some ({ n with runningConfigHash := some (generateSHA ext tc none) }, none,
          [Effect.configPush (renderConfigWithCustomEntities ext
            (cleanUpNullsInPluginConfigs { tc with info := none }) none)])) := by
  have hce : customEntitiesFor w n = none := by
    rw [customEntitiesFor]
    split
    · rw [hfetch]
    · rfl
  refine ⟨hce, ?_⟩
  intro hm hrs hh hpush
  have hns : ¬ (n.cfg.enableReverseSync = false ∧
      n.runningConfigHash = (if n.cfg.enableReverseSync then none
        else some (generateSHA ext tc (customEntitiesFor w n)))) := by
    rintro ⟨_, hcond⟩
    rw [hh, hrs] at hcond
    simp at hcond
  rw [OnUpdate_dispatch ext w n st tc hrender hns]
  simp only [hm, if_true]
  rw [onUpdateInMemoryMode_eq]
  simp only [hpush, hce, hrs]
  simp

/-- Witness for claim C8 (amended): the concrete malformed reference. -/
theorem claim_C8_amended_witness :
    customEntitiesFor worldOk nBadRef = none ∧
    OnUpdate extW worldOk nBadRef stEmpty =
      some ({ nBadRef with runningConfigHash := some (generateSHA extW contentEmpty none) },
        none,
        [Effect.configPush (renderConfigWithCustomEntities extW
          (cleanUpNullsInPluginConfigs { contentEmpty with info := none }) none)]) := by
  have h := claim_C8_amended extW worldOk nBadRef stEmpty contentEmpty
    "parsing kong custom entities secret: invalid format (namespace/name) found in no-slash-here"
    rfl rfl
  exact ⟨h.1, h.2 rfl rfl rfl rfl⟩

/-- Witness for claim C9 at a concrete nameless plugin and desired state. -/
theorem claim_C9_nil_plugin_name_panics_witness :
    (fillPlugin extW (some plugNoName)).1 = some "plugin does not have a name" ∧
    processPlugin extW plugNoName = none ∧
    toDeckContent extW cfgDB stNoName = none := by
  refine ⟨(claim_C9_nil_plugin_name_panics.1 extW plugNoName rfl).1,
          (claim_C9_nil_plugin_name_panics.1 extW plugNoName rfl).2, ?_⟩
  refine claim_C9_nil_plugin_name_panics.2 extW cfgDB stNoName (Or.inl ?_)
  refine ⟨{ service := { name := some "s" }, plugins := [plugNoName], routes := [] }, ?_, ?_⟩
  · simp [stNoName, stEmpty]
  · exact Or.inl ⟨plugNoName, List.mem_singleton.mpr rfl, rfl⟩

end KongCtrl
